import Mathlib

/-!
Verification development for analyze_heap.py (heap-snapshot decoder,
graph builder, diff/rank engines, ancestry walker).

The byte stream of a snapshot file (after the transparent gzip layer,
which this model does not re-implement) is a `List Nat` of byte values.
Decoded strings are represented as lists of Unicode code points.
Python exceptions are modelled by the `PyErr` error type of an `Except`
result: any Python exception escaping `_scanheap` or `_top` aborts the
run, so the model only needs to know which exception fired first.
-/

/-- Record tags of the wire format (analyze_heap.py lines 8-12). -/
def RECORD_DONE : Nat := 0

def RECORD_TYPE : Nat := 1

def RECORD_OBJECT : Nat := 2

def RECORD_OBJECT_WITH_PAYLOAD : Nat := 3

def RECORD_REFERENTS : Nat := 4

/-- Python exceptions that the analyzed code can raise, by class. -/
inductive PyErr
  | structError
  | keyError
  | typeError
  | attributeError
  | unicodeDecodeError
  | unboundLocalError
  | valueError
  | fuelExhausted
deriving DecidableEq

/-- HeapObject NamedTuple (analyze_heap.py lines 15-22); the field order is
the tuple order, with `size` first so a plain tuple sort ranks by size. -/
structure HeapObject where
  size : Nat
  addr : Nat
  typename : List Nat
  referents : List Nat
  referrers : List Nat
  payload : Option (List Nat) := none
deriving DecidableEq

/-- Big-endian interpretation of a byte list (the `!` formats of struct). -/
def beNat (bs : List Nat) : Nat := bs.foldl (fun acc b => acc * 256 + b) 0

/-- Models `struct.unpack(fmt, f.read(n))` for a fixed-size format of `n`
bytes: `f.read` returns at most what is left, and `struct.unpack` raises
`struct.error` when the buffer is shorter than the format requires. -/
def readExact (n : Nat) (s : List Nat) : Except PyErr (List Nat × List Nat) :=
  if s.length < n then .error .structError else .ok (s.take n, s.drop n)

/-- Python dict assignment `d[k] = v` on an association list: an existing key
keeps its position and gets the new value (last writer wins), a new key is
appended in insertion order. -/
def dictInsert {α : Type} (d : List (Nat × α)) (k : Nat) (v : α) : List (Nat × α) :=
  if (d.lookup k).isSome then d.map (fun p => if p.1 = k then (k, v) else p)
  else d ++ [(k, v)]

/-- Lower bound for the first continuation byte of a 3-byte UTF-8 sequence. -/
def cont3lo (b0 : Nat) : Nat := if b0 = 0xE0 then 0xA0 else 0x80

/-- Upper bound for the first continuation byte of a 3-byte UTF-8 sequence
(0xED caps at 0x9F so that surrogates are rejected). -/
def cont3hi (b0 : Nat) : Nat := if b0 = 0xED then 0x9F else 0xBF

/-- Lower bound for the first continuation byte of a 4-byte UTF-8 sequence. -/
def cont4lo (b0 : Nat) : Nat := if b0 = 0xF0 then 0x90 else 0x80

/-- Upper bound for the first continuation byte of a 4-byte UTF-8 sequence
(0xF4 caps at 0x8F so that code points stay below 0x110000). -/
def cont4hi (b0 : Nat) : Nat := if b0 = 0xF4 then 0x8F else 0xBF

/-- One well-formed UTF-8 sequence at the head of the byte list:
`some (codePoint, byteLength)`, or `none` when the head is not the start of
a valid sequence (CPython's validation rules). -/
def utf8Seq : List Nat → Option (Nat × Nat)
  | [] => none
  | b0 :: rest =>
    if b0 < 0x80 then some (b0, 1)
    else if 0xC2 ≤ b0 ∧ b0 ≤ 0xDF then
      match rest with
      | b1 :: _ =>
        if 0x80 ≤ b1 ∧ b1 ≤ 0xBF then some ((b0 - 0xC0) * 64 + (b1 - 0x80), 2)
        else none
      | [] => none
    else if 0xE0 ≤ b0 ∧ b0 ≤ 0xEF then
      match rest with
      | b1 :: b2 :: _ =>
        if (cont3lo b0 ≤ b1 ∧ b1 ≤ cont3hi b0) ∧ (0x80 ≤ b2 ∧ b2 ≤ 0xBF) then
          some ((b0 - 0xE0) * 4096 + (b1 - 0x80) * 64 + (b2 - 0x80), 3)
        else none
      | _ => none
    else if 0xF0 ≤ b0 ∧ b0 ≤ 0xF4 then
      match rest with
      | b1 :: b2 :: b3 :: _ =>
        if (cont4lo b0 ≤ b1 ∧ b1 ≤ cont4hi b0) ∧ (0x80 ≤ b2 ∧ b2 ≤ 0xBF)
            ∧ (0x80 ≤ b3 ∧ b3 ≤ 0xBF) then
          some ((b0 - 0xF0) * 262144 + (b1 - 0x80) * 4096 + (b2 - 0x80) * 64 + (b3 - 0x80), 4)
        else none
      | _ => none
    else none

/-- Strict UTF-8 decode, fuelled by the byte count; models
`bytes.decode("utf-8")`, which raises `UnicodeDecodeError` on any invalid
sequence. -/
def utf8DecodeStrictAux : Nat → List Nat → Option (List Nat)
  | _, [] => some []
  | 0, _ :: _ => none
  | fuel + 1, bs =>
    match utf8Seq bs with
    | none => none
    | some (cp, len) =>
      match utf8DecodeStrictAux fuel (bs.drop len) with
      | none => none
      | some cps => some (cp :: cps)

/-- Models `bytes.decode("utf-8")` (strict errors). -/
def utf8DecodeStrict (bs : List Nat) : Option (List Nat) :=
  utf8DecodeStrictAux bs.length bs

/-- Length of the maximal subpart to skip at an invalid position, per
CPython's errors="replace" handler: a truncated-but-so-far-valid multi-byte
prefix is consumed as one unit, any other byte alone. Always at least 1. -/
def utf8SkipLen : List Nat → Nat
  | [] => 1
  | b0 :: rest =>
    if 0xE0 ≤ b0 ∧ b0 ≤ 0xEF then
      match rest with
      | b1 :: _ => if cont3lo b0 ≤ b1 ∧ b1 ≤ cont3hi b0 then 2 else 1
      | [] => 1
    else if 0xF0 ≤ b0 ∧ b0 ≤ 0xF4 then
      match rest with
      | b1 :: b2 :: _ =>
        if cont4lo b0 ≤ b1 ∧ b1 ≤ cont4hi b0 then
          (if 0x80 ≤ b2 ∧ b2 ≤ 0xBF then 3 else 2)
        else 1
      | [b1] => if cont4lo b0 ≤ b1 ∧ b1 ≤ cont4hi b0 then 2 else 1
      | [] => 1
    else 1

/-- Lossy UTF-8 decode, fuelled by the byte count: each invalid maximal
subpart becomes U+FFFD. -/
def utf8DecodeReplaceAux : Nat → List Nat → List Nat
  | _, [] => []
  | 0, _ :: _ => []
  | fuel + 1, bs =>
    match utf8Seq bs with
    | some (cp, len) => cp :: utf8DecodeReplaceAux fuel (bs.drop len)
    | none => 0xFFFD :: utf8DecodeReplaceAux fuel (bs.drop (utf8SkipLen bs))

/-- Models `bytes.decode("utf-8", "replace")`. -/
def utf8DecodeReplace (bs : List Nat) : List Nat :=
  utf8DecodeReplaceAux bs.length bs

/-- Decoder state of `_scanheap`: the `typenames` dict and the
`live_objects` dict, both in Python dict (insertion) order. -/
structure ScanState where
  typenames : List (Nat × List Nat)
  liveObjects : List (Nat × HeapObject)
deriving DecidableEq

/-- One iteration of the `while True` record loop of `_scanheap`
(analyze_heap.py lines 33-78).  `.ok none` is the `break` on `RECORD_DONE`;
`.ok (some (st, s))` continues with the updated dicts and remaining bytes.

Faithful points worth noting against the source:
* reading the tag byte of an empty stream raises `struct.error`
  (`struct.unpack("B", b"")`);
* `RECORD_TYPE` names are decoded strictly (`.decode("utf-8")`, no
  "replace"), so invalid UTF-8 raises `UnicodeDecodeError`;
* `RECORD_OBJECT[_WITH_PAYLOAD]` resolves `typenames[objtype_addr]`,
  raising `KeyError` when the type id was never registered;
* `RECORD_REFERENTS` looks up `live_objects[addr]` (`KeyError` when
  absent) and then calls `struct.unpack` on
  `f.read(8 * count).decode("utf-8", "replace")` -- a `str`, not a
  bytes-like object -- which always raises `TypeError`, whatever `count`
  is, before any referent address is stored;
* an unknown tag only calls `logging.fatal`, which logs at CRITICAL level
  and returns, so the loop continues with the next byte. -/
def scanStep (st : ScanState) (s : List Nat) : Except PyErr (Option (ScanState × List Nat)) :=
  match s with
  | [] => .error .structError
  | tag :: s =>
    if tag = RECORD_DONE then .ok none
    else if tag = RECORD_TYPE then
      match readExact 10 s with
      | .error e => .error e
      | .ok (hdr, s) =>
        match utf8DecodeStrict (s.take (beNat (hdr.drop 8))) with
        | none => .error .unicodeDecodeError
        | some name =>
          .ok (some ({ st with typenames := dictInsert st.typenames (beNat (hdr.take 8)) name },
            s.drop (beNat (hdr.drop 8))))
    else if tag = RECORD_OBJECT then
      match readExact 20 s with
      | .error e => .error e
      | .ok (hdr, s) =>
        match st.typenames.lookup (beNat ((hdr.drop 8).take 8)) with
        | none => .error .keyError
        | some tn =>
          let o : HeapObject := ⟨beNat (hdr.drop 16), beNat (hdr.take 8), tn, [], [], none⟩
          .ok (some ({ st with liveObjects := dictInsert st.liveObjects (beNat (hdr.take 8)) o }, s))
    else if tag = RECORD_OBJECT_WITH_PAYLOAD then
      match readExact 22 s with
      | .error e => .error e
      | .ok (hdr, s) =>
        match st.typenames.lookup (beNat ((hdr.drop 8).take 8)) with
        | none => .error .keyError
        | some tn =>
          let o : HeapObject := ⟨beNat ((hdr.drop 16).take 4), beNat (hdr.take 8), tn, [], [],
            some (utf8DecodeReplace (s.take (beNat (hdr.drop 20))))⟩
          .ok (some ({ st with liveObjects := dictInsert st.liveObjects (beNat (hdr.take 8)) o },
            s.drop (beNat (hdr.drop 20))))
    else if tag = RECORD_REFERENTS then
      match readExact 10 s with
      | .error e => .error e
      | .ok (hdr, _) =>
        match st.liveObjects.lookup (beNat (hdr.take 8)) with
        | none => .error .keyError
        | some _ => .error .typeError
    else .ok (some (st, s))

/-- The record loop, fuelled; each iteration consumes at least the tag
byte, so `stream length + 1` fuel never runs out. -/
def scanLoop : Nat → ScanState → List Nat → Except PyErr ScanState
  | 0, _, _ => .error .fuelExhausted
  | fuel + 1, st, s =>
    match scanStep st s with
    | .error e => .error e
    | .ok none => .ok st
    | .ok (some (st', s')) => scanLoop fuel st' s'

/-- Attribute access `obj.referents` where `obj` is an `int`: in the
referrer-fill loop of `_scanheap` (line 83) the loop variable of
`for obj in live_objects` ranges over the dict's KEYS, which are ints, so
this access raises `AttributeError`. -/
def intAttrReferents (_k : Nat) : Except PyErr (List Nat) := .error .attributeError

/-- Attribute access `obj.addr` where `obj` is an `int` (same loop,
line 85): also `AttributeError`. -/
def intAttrAddr (_k : Nat) : Except PyErr Nat := .error .attributeError

/-- The referrer-fill loop of `_scanheap` (analyze_heap.py lines 82-86):

  for obj in live_objects:
      for referent in obj.referents:
          live_objects[referent].referrers.append(obj.addr)

`for obj in live_objects` iterates the dict's keys, so `obj` is an `int`
and the first attribute access raises; the inner body (a `KeyError` on a
referent absent from the table, otherwise an append to that object's
referrer list) is kept for fidelity but is unreachable. -/
def fillReferrers (live : List (Nat × HeapObject)) : Except PyErr (List (Nat × HeapObject)) :=
  (live.map Prod.fst).foldlM
    (fun acc key => do
      let refs ← intAttrReferents key
      refs.foldlM
        (fun acc2 r =>
          match acc2.lookup r with
          | none => .error .keyError
          | some o => do
            let a ← intAttrAddr key
            pure (dictInsert acc2 r { o with referrers := o.referrers ++ [a] }))
        acc)
    live

/-- `_scanheap` (analyze_heap.py lines 24-88): run the record loop from
empty dicts, then the referrer-fill loop, and return the live-object
table.  Any Python exception propagates out as the error value.  Note the
dead `else` clause of the `while True` loop: the "incomplete file" warning
can never execute, since the loop only leaves by `break` or by a raised
exception. -/
def pyScanheap (s : List Nat) : Except PyErr (List (Nat × HeapObject)) :=
  match scanLoop (s.length + 1) ⟨[], []⟩ s with
  | .error e => .error e
  | .ok st => fillReferrers st.liveObjects

/-- The diff restriction in `_main` (analyze_heap.py lines 164-170): keep
exactly the addresses present in both dumps, taking the value from
`all_objects`, a `copy.copy` of the newer dump's table.  The source builds
the dict by iterating a key-set intersection (unordered); this model keeps
the newer table's order, which represents the same address-to-object
mapping. -/
def pySurvivingObjects (live previous : List (Nat × HeapObject)) : List (Nat × HeapObject) :=
  live.filter (fun p => (previous.lookup p.1).isSome)

/-- The `--show-parents` ancestry walk of `_top` (analyze_heap.py lines
110-125).  `parent_addr` is read by the loop condition before any
assignment, so the very first evaluation raises `UnboundLocalError`; the
model threads the variable as an `Option` that starts out unbound.  Had it
been bound, `p = 0` is the root exit, a revisited address is the cycle
exit ("loop" is logged), a missing address raises `KeyError`, and the
4-name unpacking `parent_addr, typename, size, payload = all_objects[addr]`
of the 6-field HeapObject raises `ValueError`, so the loop could never
even complete one hop. -/
def showParentsStep (allObjects : List (Nat × HeapObject)) (seen : List Nat)
    (parentAddr : Option Nat) : Except PyErr (List Nat) :=
  match parentAddr with
  | none => .error .unboundLocalError
  | some p =>
    if p = 0 then .ok seen
    else if p ∈ seen then .ok seen
    else
      match allObjects.lookup p with
      | none => .error .keyError
      | some _ => .error .valueError

/-- Entry to the ancestry walk: fresh `seen` set, `parent_addr` unbound. -/
def pyShowParents (allObjects : List (Nat × HeapObject)) : Except PyErr (List Nat) :=
  showParentsStep allObjects [] none

/-- Stream for claim C1: TYPE(id 1, name "T"), OBJECT(addr 5, type 1,
size 16), DONE -- a minimal synthetic set encoded per the wire format. -/
def c1Stream : List Nat :=
  [1, 0, 0, 0, 0, 0, 0, 0, 1, 0, 1, 84,
   2, 0, 0, 0, 0, 0, 0, 0, 5, 0, 0, 0, 0, 0, 0, 0, 1, 0, 0, 0, 16,
   0]

/-- The object that c1Stream's OBJECT record describes. -/
def c1Object : HeapObject := ⟨16, 5, [84], [], [], none⟩

/-- Claim C1: the spec promises a round trip -- decoding a stream encoded
per the wire format reproduces the synthetic address-to-object mapping.
The record loop does rebuild exactly that mapping, but `_scanheap` then
crashes with `AttributeError` in its referrer-fill loop (which iterates
dict keys, ints) before returning, for every snapshot with at least one
object, so the decoder never reproduces a non-empty mapping. -/
theorem roundtrip_decode_crashes :
    scanLoop (c1Stream.length + 1) ⟨[], []⟩ c1Stream = .ok ⟨[(1, [84])], [(5, c1Object)]⟩
    ∧ pyScanheap c1Stream = .error .attributeError :=
  ⟨rfl, rfl⟩

/-- Table for claim C2: one decoded object with no referents at all. -/
def c2Table : List (Nat × HeapObject) := [(5, ⟨16, 5, [84], [], [], none⟩)]

/-- Claim C2: referrer symmetry is claimed to hold after the Graph Builder
runs, but the builder (`for obj in live_objects` over dict keys) raises
`AttributeError` on any non-empty ObjectTable -- it only completes on an
empty table -- so it never populates a single referrer set. -/
theorem referrer_symmetry_builder_crashes :
    fillReferrers c2Table = .error .attributeError ∧ fillReferrers [] = .ok [] :=
  ⟨rfl, rfl⟩

/-- Stream for claim C3: an unknown tag 5, then a well-formed TYPE record,
then DONE. -/
def c3Stream : List Nat := [5, 1, 0, 0, 0, 0, 0, 0, 0, 1, 0, 1, 84, 0]

/-- Claim C3: an unknown tag is claimed to abort the decode fatally with
no partial result.  In the code `logging.fatal` merely logs, the loop
continues with the next byte, keeps decoding records (the TYPE record
after the bad tag is registered), and the decode returns successfully. -/
theorem unknown_tag_not_fatal :
    pyScanheap c3Stream = .ok []
    ∧ scanLoop (c3Stream.length + 1) ⟨[], []⟩ c3Stream = .ok ⟨[(1, [84])], []⟩ :=
  ⟨rfl, rfl⟩

/-- Stream for claim C4: one well-formed TYPE record, then end-of-stream,
no DONE tag. -/
def c4Stream : List Nat := [1, 0, 0, 0, 0, 0, 0, 0, 1, 0, 1, 84]

/-- Claim C4: end-of-stream before DONE is claimed to return the snapshot
built so far with a distinguishable incomplete signal.  The code instead
raises `struct.error` (`struct.unpack("B", b"")` on the empty tag read);
the `while`/`else` branch that would log "incomplete file" is dead code,
so no partial snapshot is ever returned. -/
theorem truncated_stream_raises : pyScanheap c4Stream = .error .structError := rfl

/-- Stream for claim C5: TYPE(1, "T"), OBJECT(addr 5, type 1, size 16),
REFERENTS(addr 5, count 1, [5]), DONE would follow but is never reached. -/
def c5Stream : List Nat :=
  [1, 0, 0, 0, 0, 0, 0, 0, 1, 0, 1, 84,
   2, 0, 0, 0, 0, 0, 0, 0, 5, 0, 0, 0, 0, 0, 0, 0, 1, 0, 0, 0, 16,
   4, 0, 0, 0, 0, 0, 0, 0, 5, 0, 1, 0, 0, 0, 0, 0, 0, 0, 5,
   0]

/-- Claim C5: a REFERENTS record for a live address is claimed to replace
the object's referent list with the decoded big-endian addresses.  The
code instead passes `f.read(8 * count).decode("utf-8", "replace")` -- a
`str` -- to `struct.unpack`, which raises `TypeError` for every REFERENTS
record whose address is live (and its format string lacks `!`, so even the
intended decode would be native-endian, not big-endian). -/
theorem referents_record_type_error : pyScanheap c5Stream = .error .typeError := rfl

/-- Table for claim C8: the referent cycle A(1) -> B(2) -> C(3) -> A(1),
with the matching referrer cycle derived. -/
def cycTable : List (Nat × HeapObject) :=
  [(1, ⟨16, 1, [65], [2], [3], none⟩),
   (2, ⟨16, 2, [66], [3], [1], none⟩),
   (3, ⟨16, 3, [67], [1], [2], none⟩)]

/-- Claim C8: the ancestry walk is claimed to track visited addresses,
terminate within 3 hops on the A->B->C->A cycle, and report the cycle.
The walk instead raises `UnboundLocalError` at once: `parent_addr` is read
by the loop condition before any assignment, so not even one hop happens
and no cycle is ever reported. -/
theorem ancestry_walk_unbound_local : pyShowParents cycTable = .error .unboundLocalError := rfl

/-- Table for claim C9: one object whose lone referent, 999, is dangling
(absent from the table). -/
def c9Table : List (Nat × HeapObject) := [(1, ⟨32, 1, [100], [999], [], none⟩)]

/-- Claim C9: a dangling referent is claimed to be silently skipped by the
Graph Builder.  The builder aborts instead of proceeding: it raises
`AttributeError` at its first key iteration, and even the intended
per-referent body does an unguarded `live_objects[referent]` lookup, whose
`KeyError` branch (kept in `fillReferrers`) aborts rather than skips. -/
theorem dangling_referent_builder_crashes : fillReferrers c9Table = .error .attributeError := rfl

/-- Python `int` comparison, three-valued. -/
def cmpNat (a b : Nat) : Ordering := if a < b then .lt else if b < a then .gt else .eq

/-- Python list comparison (lexicographic; a strict prefix is smaller). -/
def cmpList : List Nat → List Nat → Ordering
  | [], [] => .eq
  | [], _ :: _ => .lt
  | _ :: _, [] => .gt
  | a :: as, b :: bs => (cmpNat a b).then (cmpList as bs)

/-- Comparison of the `payload` field (`str | None`).  Python's tuple
comparison only reaches unequal payloads after all five earlier fields tie,
and then `None < str` would raise `TypeError`; since two table values never
tie on `addr`, that branch is unreachable, and the model totalises it by
ordering `none` first. -/
def cmpOpt : Option (List Nat) → Option (List Nat) → Ordering
  | none, none => .eq
  | none, some _ => .lt
  | some _, none => .gt
  | some a, some b => cmpList a b

/-- Python's comparison of two HeapObject NamedTuples: lexicographic over
the fields in declaration order (size, addr, typename, referents,
referrers, payload). -/
def hoCmp (a b : HeapObject) : Ordering :=
  (cmpNat a.size b.size).then
    ((cmpNat a.addr b.addr).then
      ((cmpList a.typename b.typename).then
        ((cmpList a.referents b.referents).then
          ((cmpList a.referrers b.referrers).then
            (cmpOpt a.payload b.payload)))))

/-- The ordering `sorted(..., reverse=True)` establishes: `a` may precede
`b` exactly when `a` is not tuple-less-than `b`. -/
def hoDescLe (a b : HeapObject) : Prop := hoCmp a b ≠ .lt

instance : DecidableRel hoDescLe := fun a b => by unfold hoDescLe; infer_instance

/-- `sorted(live_objects.values(), reverse=True)` of `_top` (line 100). -/
def pySortedDesc (objs : List HeapObject) : List HeapObject :=
  List.insertionSort hoDescLe objs

/-- `sorted(live_objects.values(), reverse=True)[: K]` of `_top`
(lines 100-102): the ranked top-K list. -/
def pyTop (live : List (Nat × HeapObject)) (k : Nat) : List HeapObject :=
  (pySortedDesc (live.map Prod.snd)).take k

/-- Modelled from the spec's words for the Rank Engine (§4.4), for
comparison with the source's ranking: largest `size` first, ties compared
next by `type_name` ascending, then by `address` ascending. -/
def specTopCmp (a b : HeapObject) : Ordering :=
  (cmpNat b.size a.size).then ((cmpList a.typename b.typename).then (cmpNat a.addr b.addr))

/-- Spec-side "may precede" relation induced by `specTopCmp`. -/
def specDescLe (a b : HeapObject) : Prop := specTopCmp a b ≠ .gt

instance : DecidableRel specDescLe := fun a b => by unfold specDescLe; infer_instance

/-- Spec-side top-K: sort by the documented order, truncate to K. -/
def specTop (live : List (Nat × HeapObject)) (k : Nat) : List HeapObject :=
  (List.insertionSort specDescLe (live.map Prod.snd)).take k

theorem cmpNat_lt_iff {a b : Nat} : cmpNat a b = .lt ↔ a < b := by
  unfold cmpNat
  by_cases h1 : a < b
  · simp [h1]
  · by_cases h2 : b < a <;> simp [h1, h2]

theorem cmpNat_gt_iff {a b : Nat} : cmpNat a b = .gt ↔ b < a := by
  unfold cmpNat
  by_cases h1 : a < b
  · simp [h1]; omega
  · by_cases h2 : b < a <;> simp [h1, h2]

theorem cmpNat_eq_iff {a b : Nat} : cmpNat a b = .eq ↔ a = b := by
  unfold cmpNat
  by_cases h1 : a < b
  · simp [h1]; omega
  · by_cases h2 : b < a <;> simp [h1, h2] <;> omega

theorem cmpNat_swap (a b : Nat) : (cmpNat a b).swap = cmpNat b a := by
  unfold cmpNat
  rcases Nat.lt_trichotomy a b with h | h | h
  · rw [if_pos h, if_neg (Nat.lt_asymm h), if_pos h]
    rfl
  · subst h
    rw [if_neg (Nat.lt_irrefl a), if_neg (Nat.lt_irrefl a)]
    rfl
  · rw [if_neg (Nat.lt_asymm h), if_pos h, if_pos h]
    rfl

theorem cmpNat_lt_trans {a b c : Nat} :
    cmpNat a b = .lt → cmpNat b c = .lt → cmpNat a c = .lt := by
  simp only [cmpNat_lt_iff]
  omega

/-- A comparator that behaves like a strict weak order with substitutable
equality: enough structure to make its induced "not below" relation total
and transitive. -/
structure GoodCmp {α : Type} (cmp : α → α → Ordering) : Prop where
  swap_eq : ∀ a b, (cmp a b).swap = cmp b a
  lt_trans : ∀ a b c, cmp a b = .lt → cmp b c = .lt → cmp a c = .lt
  eq_left : ∀ a b c, cmp a b = .eq → cmp b c = cmp a c

theorem GoodCmp.eq_right {α : Type} {cmp : α → α → Ordering} (h : GoodCmp cmp)
    (a b c : α) (hbc : cmp b c = .eq) : cmp a b = cmp a c := by
  have hab : cmp a b = (cmp b a).swap := by rw [← h.swap_eq a b, Ordering.swap_swap]
  have hac : cmp a c = (cmp c a).swap := by rw [← h.swap_eq a c, Ordering.swap_swap]
  rw [hab, hac, h.eq_left b c a hbc]

theorem GoodCmp.pull {α β : Type} (f : α → β) {cb : β → β → Ordering} (hb : GoodCmp cb) :
    GoodCmp (fun a b => cb (f a) (f b)) := by
  refine ⟨fun a b => hb.swap_eq (f a) (f b), fun a b c => hb.lt_trans (f a) (f b) (f c),
    fun a b c => hb.eq_left (f a) (f b) (f c)⟩

theorem GoodCmp.lexStep {α β : Type} (f : α → β) {cb : β → β → Ordering}
    {c2 : α → α → Ordering} (hb : GoodCmp cb) (h2 : GoodCmp c2) :
    GoodCmp (fun a b => (cb (f a) (f b)).then (c2 a b)) := by
  constructor
  · intro a b
    show ((cb (f a) (f b)).then (c2 a b)).swap = (cb (f b) (f a)).then (c2 b a)
    rw [Ordering.swap_then, hb.swap_eq, h2.swap_eq]
  · intro a b c hab hbc
    show (cb (f a) (f c)).then (c2 a c) = .lt
    rw [Ordering.then_eq_lt] at hab hbc ⊢
    rcases hab with h1 | ⟨h1, h1'⟩ <;> rcases hbc with h2' | ⟨h2', h2''⟩
    · exact Or.inl (hb.lt_trans _ _ _ h1 h2')
    · exact Or.inl (by rw [← hb.eq_right (f a) (f b) (f c) h2']; exact h1)
    · exact Or.inl (by rw [← hb.eq_left (f a) (f b) (f c) h1]; exact h2')
    · refine Or.inr ⟨?_, h2.lt_trans _ _ _ h1' h2''⟩
      rw [← hb.eq_left (f a) (f b) (f c) h1]
      exact h2'
  · intro a b c h
    rw [Ordering.then_eq_eq] at h
    obtain ⟨hb1, h21⟩ := h
    show (cb (f b) (f c)).then (c2 b c) = (cb (f a) (f c)).then (c2 a c)
    rw [hb.eq_left (f a) (f b) (f c) hb1, h2.eq_left a b c h21]

theorem goodCmpNat : GoodCmp cmpNat := by
  refine ⟨cmpNat_swap, fun a b c h1 h2 => cmpNat_lt_trans h1 h2, fun a b c h => ?_⟩
  obtain rfl := cmpNat_eq_iff.mp h
  rfl

theorem cmpList_swap (xs ys : List Nat) : (cmpList xs ys).swap = cmpList ys xs := by
  induction xs generalizing ys with
  | nil => cases ys <;> rfl
  | cons x xs ih =>
    cases ys with
    | nil => rfl
    | cons y ys =>
      show ((cmpNat x y).then (cmpList xs ys)).swap = (cmpNat y x).then (cmpList ys xs)
      rw [Ordering.swap_then, cmpNat_swap, ih]

theorem cmpList_eq_iff {xs ys : List Nat} : cmpList xs ys = .eq ↔ xs = ys := by
  induction xs generalizing ys with
  | nil => cases ys <;> simp [cmpList]
  | cons x xs ih =>
    cases ys with
    | nil => simp [cmpList]
    | cons y ys =>
      show (cmpNat x y).then (cmpList xs ys) = .eq ↔ _
      rw [Ordering.then_eq_eq]
      simp [cmpNat_eq_iff, ih]

theorem cmpList_lt_trans (xs ys zs : List Nat) :
    cmpList xs ys = .lt → cmpList ys zs = .lt → cmpList xs zs = .lt := by
  induction xs generalizing ys zs with
  | nil =>
    intro h1 h2
    cases ys with
    | nil => exact absurd h1 (by simp [cmpList])
    | cons y ys =>
      cases zs with
      | nil => exact absurd h2 (by simp [cmpList])
      | cons z zs => rfl
  | cons x xs ih =>
    intro h1 h2
    cases ys with
    | nil => exact absurd h1 (by simp [cmpList])
    | cons y ys =>
      cases zs with
      | nil => exact absurd h2 (by simp [cmpList])
      | cons z zs =>
        rw [show cmpList (x :: xs) (y :: ys) = (cmpNat x y).then (cmpList xs ys) from rfl,
          Ordering.then_eq_lt] at h1
        rw [show cmpList (y :: ys) (z :: zs) = (cmpNat y z).then (cmpList ys zs) from rfl,
          Ordering.then_eq_lt] at h2
        rw [show cmpList (x :: xs) (z :: zs) = (cmpNat x z).then (cmpList xs zs) from rfl,
          Ordering.then_eq_lt]
        rcases h1 with h1 | ⟨h1, h1'⟩ <;> rcases h2 with h2 | ⟨h2, h2'⟩
        · exact Or.inl (cmpNat_lt_trans h1 h2)
        · obtain rfl := cmpNat_eq_iff.mp h2
          exact Or.inl h1
        · obtain rfl := cmpNat_eq_iff.mp h1
          exact Or.inl h2
        · obtain rfl := cmpNat_eq_iff.mp h1
          exact Or.inr ⟨h2, ih ys zs h1' h2'⟩

theorem goodCmpList : GoodCmp cmpList := by
  refine ⟨cmpList_swap, cmpList_lt_trans, fun a b c h => ?_⟩
  obtain rfl := cmpList_eq_iff.mp h
  rfl

theorem cmpOpt_swap (x y : Option (List Nat)) : (cmpOpt x y).swap = cmpOpt y x := by
  cases x <;> cases y <;> first | rfl | exact cmpList_swap _ _

theorem cmpOpt_eq_iff {x y : Option (List Nat)} : cmpOpt x y = .eq ↔ x = y := by
  cases x <;> cases y <;> simp [cmpOpt, cmpList_eq_iff]

theorem cmpOpt_lt_trans (x y z : Option (List Nat)) :
    cmpOpt x y = .lt → cmpOpt y z = .lt → cmpOpt x z = .lt := by
  cases x <;> cases y <;> cases z <;> simp [cmpOpt]
  exact cmpList_lt_trans _ _ _

theorem goodCmpOpt : GoodCmp cmpOpt := by
  refine ⟨cmpOpt_swap, cmpOpt_lt_trans, fun a b c h => ?_⟩
  obtain rfl := cmpOpt_eq_iff.mp h
  rfl

theorem goodHoCmp : GoodCmp hoCmp := by
  have h6 : GoodCmp (fun a b : HeapObject => cmpOpt a.payload b.payload) :=
    GoodCmp.pull (fun o : HeapObject => o.payload) goodCmpOpt
  have h5 := GoodCmp.lexStep (fun o : HeapObject => o.referrers) goodCmpList h6
  have h4 := GoodCmp.lexStep (fun o : HeapObject => o.referents) goodCmpList h5
  have h3 := GoodCmp.lexStep (fun o : HeapObject => o.typename) goodCmpList h4
  have h2 := GoodCmp.lexStep (fun o : HeapObject => o.addr) goodCmpNat h3
  have h1 := GoodCmp.lexStep (fun o : HeapObject => o.size) goodCmpNat h2
  exact h1

theorem hoDescLe_total : ∀ a b : HeapObject, hoDescLe a b ∨ hoDescLe b a := by
  intro a b
  by_cases h : hoCmp a b = .lt
  · right
    unfold hoDescLe
    rw [← goodHoCmp.swap_eq a b, h]
    decide
  · exact Or.inl h

instance : IsTotal HeapObject hoDescLe := ⟨hoDescLe_total⟩

theorem hoDescLe_trans : ∀ a b c : HeapObject, hoDescLe a b → hoDescLe b c → hoDescLe a c := by
  intro a b c h1 h2 h3
  rcases hab : hoCmp a b with _ | _ | _
  · exact h1 hab
  · exact h2 (by rw [goodHoCmp.eq_left a b c hab]; exact h3)
  · rcases hbc : hoCmp b c with _ | _ | _
    · exact h2 hbc
    · rw [← goodHoCmp.eq_right a b c hbc, hab] at h3
      simp at h3
    · have hba : hoCmp b a = .lt := by rw [← goodHoCmp.swap_eq a b, hab]; rfl
      have hcb : hoCmp c b = .lt := by rw [← goodHoCmp.swap_eq b c, hbc]; rfl
      have hgt : hoCmp a c = .gt := by
        rw [← goodHoCmp.swap_eq c a, goodHoCmp.lt_trans c b a hcb hba]
        rfl
      rw [hgt] at h3
      simp at h3

instance : IsTrans HeapObject hoDescLe := ⟨hoDescLe_trans⟩

/-- What "not tuple-less-than" says about the two fields that always
decide the comparison in a table (addresses are table keys): the size is
no smaller, and on a size tie the address is no smaller. -/
theorem hoDescLe_size_addr {a b : HeapObject} (h : hoDescLe a b) :
    b.size < a.size ∨ (b.size = a.size ∧ b.addr ≤ a.addr) := by
  unfold hoDescLe hoCmp at h
  rcases h1 : cmpNat a.size b.size with _ | _ | _
  · rw [h1] at h
    exact absurd rfl h
  · rw [h1] at h
    refine Or.inr ⟨(cmpNat_eq_iff.mp h1).symm, ?_⟩
    rcases h2 : cmpNat a.addr b.addr with _ | _ | _
    · rw [h2] at h
      exact absurd rfl h
    · exact Nat.le_of_eq (cmpNat_eq_iff.mp h2).symm
    · exact Nat.le_of_lt (cmpNat_gt_iff.mp h2)
  · exact Or.inl (cmpNat_gt_iff.mp h1)

/-- Table for claim C6: two size-48 objects, type names "a" (address 1)
and "b" (address 2).  The spec's tie-break puts "a" first; the code's
reverse tuple sort puts address 2 ("b") first. -/
def c6Table : List (Nat × HeapObject) :=
  [(1, ⟨48, 1, [97], [], [], none⟩), (2, ⟨48, 2, [98], [], [], none⟩)]

/-- Claim C6 (counterexample): the ranking does not break size ties by
type_name ascending then address ascending -- on `c6Table` the code's
order differs from the spec's documented order. -/
theorem topRanking_counterexample : pyTop c6Table 2 ≠ specTop c6Table 2 := by decide

/-- Claim C6 (amended): `top` takes the first K of the reverse tuple sort,
which is a permutation of the table's values ordered by descending size
with ties broken by descending ADDRESS (the tuple is (size, addr,
typename, ...)), not by type_name/address ascending; K = 0 yields the
empty sequence and the result length is min K (table size), so K beyond
the table size returns the whole sorted table -- never an error. -/
theorem topRanking_amended (live : List (Nat × HeapObject)) (k : Nat) :
    pyTop live k = (pySortedDesc (live.map Prod.snd)).take k
    ∧ List.Perm (pySortedDesc (live.map Prod.snd)) (live.map Prod.snd)
    ∧ List.Pairwise (fun a b => b.size < a.size ∨ (b.size = a.size ∧ b.addr ≤ a.addr))
        (pySortedDesc (live.map Prod.snd))
    ∧ pyTop live 0 = []
    ∧ (pyTop live k).length = min k (live.length) := by
  refine ⟨rfl, List.perm_insertionSort hoDescLe (live.map Prod.snd), ?_, rfl, ?_⟩
  · exact List.Pairwise.imp (fun h => hoDescLe_size_addr h)
      (List.sorted_insertionSort hoDescLe (live.map Prod.snd))
  · simp [pyTop, pySortedDesc, List.length_take, List.length_insertionSort]

theorem lookup_cons_self {α : Type} (k : Nat) (v : α) (l : List (Nat × α)) :
    ((k, v) :: l).lookup k = some v := by
  simp [List.lookup]

theorem lookup_cons_ne {α : Type} {a k : Nat} (v : α) (l : List (Nat × α)) (h : a ≠ k) :
    ((k, v) :: l).lookup a = l.lookup a := by
  simp [List.lookup, beq_eq_false_iff_ne.mpr h]

theorem pySurvivingObjects_cons (A B : List (Nat × HeapObject)) (k : Nat) (v : HeapObject) :
    pySurvivingObjects ((k, v) :: B) A =
      if (A.lookup k).isSome then (k, v) :: pySurvivingObjects B A
      else pySurvivingObjects B A := by
  unfold pySurvivingObjects
  rw [List.filter_cons]

/-- Claim C7: the diff restriction contains exactly the addresses live in
both snapshots, and each surviving address maps to the NEWER snapshot's
object (B here plays `live_objects`, the newer dump; A plays
`previous_objects`); addresses on one side only yield `none`, with no
error involved. -/
theorem diff_identity (A B : List (Nat × HeapObject)) (addr : Nat) :
    (pySurvivingObjects B A).lookup addr =
      if (A.lookup addr).isSome ∧ (B.lookup addr).isSome then B.lookup addr else none := by
  induction B with
  | nil => simp [pySurvivingObjects]
  | cons p B ih =>
    obtain ⟨k, v⟩ := p
    rw [pySurvivingObjects_cons]
    by_cases hk : addr = k
    · subst hk
      by_cases hA : (A.lookup addr).isSome
      · rw [if_pos hA, lookup_cons_self, lookup_cons_self, if_pos ⟨hA, rfl⟩]
      · rw [if_neg hA, ih]
        simp [hA]
    · rw [lookup_cons_ne v B hk]
      by_cases hA : (A.lookup k).isSome
      · rw [if_pos hA, lookup_cons_ne v (pySurvivingObjects B A) hk, ih]
      · rw [if_neg hA, ih]

/-- Stream for claim C10: a TYPE record whose single name byte 0xFF is not
valid UTF-8, then DONE. -/
def c10Stream : List Nat := [1, 0, 0, 0, 0, 0, 0, 0, 1, 0, 1, 255, 0]

/-- Claim C10 (counterexample): the claim says invalid UTF-8 in a TYPE
name is replaced and the record registered, never aborting the decode; on
`c10Stream` the decode aborts with `UnicodeDecodeError` instead. -/
theorem typeName_invalid_utf8_rejected :
    pyScanheap c10Stream = .error .unicodeDecodeError := rfl

/-- Unfolding equation for `scanStep` at a TYPE record (tag byte 1). -/
theorem scanStep_type_record (st : ScanState) (s : List Nat) :
    scanStep st (1 :: s) =
      match readExact 10 s with
      | .error e => .error e
      | .ok (hdr, s2) =>
        match utf8DecodeStrict (s2.take (beNat (hdr.drop 8))) with
        | none => .error .unicodeDecodeError
        | some name =>
          .ok (some ({ st with typenames := dictInsert st.typenames (beNat (hdr.take 8)) name },
            s2.drop (beNat (hdr.drop 8)))) := rfl

/-- Claim C10 (amended): TYPE names are decoded STRICTLY -- whenever the
declared name bytes of a TYPE record do not form valid UTF-8, the decoder
raises a fatal `UnicodeDecodeError` at that record (payloads, in
contrast, are decoded with errors="replace"). -/
theorem typeName_strict_decode_amended (st : ScanState) (hdr rest : List Nat)
    (hlen : hdr.length = 10)
    (hbad : utf8DecodeStrict (rest.take (beNat (hdr.drop 8))) = none) :
    scanStep st (1 :: (hdr ++ rest)) = .error .unicodeDecodeError := by
  have hre : readExact 10 (hdr ++ rest) = .ok (hdr, rest) := by
    unfold readExact
    rw [if_neg (by rw [List.length_append, hlen]; omega), ← hlen, List.take_left, List.drop_left]
  rw [scanStep_type_record, hre]
  simp only [hbad]

/-- Witness for the amended C10 theorem: a concrete TYPE record with name
byte 0xFF is rejected with `UnicodeDecodeError`. -/
theorem typeName_strict_decode_amended_witness :
    scanStep ⟨[], []⟩ (1 :: ([0, 0, 0, 0, 0, 0, 0, 1, 0, 1] ++ [255])) =
      .error .unicodeDecodeError :=
  typeName_strict_decode_amended ⟨[], []⟩ [0, 0, 0, 0, 0, 0, 0, 1, 0, 1] [255] rfl rfl
